import Mathlib

/-!
Verification of the disaster-alert feed client (src/app.js and the second,
unnamed list-rendering script). The definitions below are a shallow
embedding of the JavaScript source: strings are Lean strings, JS numbers
that hold intensity codes are Int, fallible fetches are modelled as an
explicit outcome type, and the DOM is abstracted away while keeping the
data that the render/notify logic computes.
-/

set_option maxHeartbeats 1000000

namespace Weather365

/-! ### Severity scale (app.js: compareScale, scaleToText) -/

/-- Association-list lookup keyed by strings. It models JS object property
access; JS objects preserve insertion order for the non-integer-like keys
used here. -/
def alookup {β : Type} (key : String) : List (String × β) → Option β
  | [] => none
  | (k, v) :: rest => if k = key then some v else alookup key rest

/-- The rank table of compareScale in app.js line 90: the object literal
mapping the nine intensity texts to the numbers 10,20,30,40,45,50,55,60,70. -/
def scaleOrder : List (String × Int) :=
  [("1", 10), ("2", 20), ("3", 30), ("4", 40), ("5-", 45),
   ("5+", 50), ("6-", 55), ("6+", 60), ("7", 70)]

/-- Models order[a]||0 : a key missing from the table ranks as 0. -/
def rank (a : String) : Int := (alookup a scaleOrder).getD 0

/-- compareScale(a,b) returns (order[a]||0)-(order[b]||0). -/
def compareScale (a b : String) : Int := rank a - rank b

/-- scaleToText (app.js line 91): numeric scale code to display text; any
unknown code maps to the unknown marker. -/
def scaleToText (s : Int) : String :=
  if s = 10 then "1" else if s = 20 then "2" else if s = 30 then "3"
  else if s = 40 then "4" else if s = 45 then "5-" else if s = 50 then "5+"
  else if s = 55 then "6-" else if s = 60 then "6+" else if s = 70 then "7"
  else "不明"

/-- The nine known intensity levels in their documented order. -/
def knownLevels : List String := ["1", "2", "3", "4", "5-", "5+", "6-", "6+", "7"]

/-! ### Intensity grouper (app.js lines 192-216) -/

/-- A raw per-location observation from the earthquake feed: prefecture,
free-text address, numeric scale code. -/
structure Point where
  pref : String
  addr : String
  scale : Int

/-- The four city/ward/town/village terminator characters of the regex in
app.js line 197. -/
def isCityEnd (c : Char) : Bool := c = '市' || c = '区' || c = '町' || c = '村'

/-- Models (p.addr||'').match(/(.+?[市区町村])/): the lazy regex matches the
shortest prefix that ends in a terminator at index at least 1; with no such
terminator the raw address is used as the city. -/
def extractCity (addr : String) : String :=
  match (addr.data.drop 1).findIdx? isCityEnd with
  | some i => String.mk (addr.data.take (i + 2))
  | none => addr

/-- Severity text of a point, scaleToText(p.scale) as in app.js line 196. -/
def sevOf (p : Point) : String := scaleToText p.scale

/-- The grouping key of a point (app.js line 199). -/
def keyOf (p : Point) : String := p.pref ++ ":" ++ extractCity p.addr

/-- Models the cityMaxScale update in app.js line 200: a key is (re)bound
only when absent or when the new severity compares strictly greater; an
existing key keeps its position. -/
def updateMax (m : List (String × String)) (key scl : String) : List (String × String) :=
  match m with
  | [] => [(key, scl)]
  | (k, v) :: rest =>
    if k = key then
      (if compareScale scl v > 0 then (k, scl) :: rest else (k, v) :: rest)
    else (k, v) :: updateMax rest key scl

/-- One step of the cityMaxScale forEach loop. -/
def cmsStep (m : List (String × String)) (p : Point) : List (String × String) :=
  updateMax m (keyOf p) (sevOf p)

/-- The cityMaxScale object after the forEach over all points. -/
def cityMaxScale (pts : List Point) : List (String × String) :=
  pts.foldl cmsStep []

/-- Characters before the first colon, the first component of k.split in
app.js line 204. -/
def takeUntilColon : List Char → List Char
  | [] => []
  | c :: cs => if c = ':' then [] else c :: takeUntilColon cs

/-- The characters after the first colon, or none when there is no colon. -/
def afterColon : List Char → Option (List Char)
  | [] => none
  | c :: cs => if c = ':' then some cs else afterColon cs

/-- First component of the destructured k.split in app.js line 204. -/
def keyPref (k : String) : String := String.mk (takeUntilColon k.data)

/-- Second component of the destructured k.split in app.js line 204 (the
segment between the first and second colon). -/
def keyCity (k : String) : String :=
  match afterColon k.data with
  | some rest => String.mk (takeUntilColon rest)
  | none => ""

/-- Localities per region inside one severity group. -/
abbrev PrefGroups := List (String × List String)

/-- The whole grouped structure: severity text to regions to localities. -/
abbrev ScaleGroups := List (String × PrefGroups)

/-- grouped[scale][pref].push(city) (app.js lines 206-208), preserving JS
object insertion order. -/
def pushLocality (prefs : PrefGroups) (pref city : String) : PrefGroups :=
  match prefs with
  | [] => [(pref, [city])]
  | (q, cs) :: rest =>
    if q = pref then (q, cs ++ [city]) :: rest
    else (q, cs) :: pushLocality rest pref city

/-- Inserts one (scale, pref, city) triple into the grouped structure. -/
def pushGroup (g : ScaleGroups) (scl pref city : String) : ScaleGroups :=
  match g with
  | [] => [(scl, [(pref, [city])])]
  | (s, prefs) :: rest =>
    if s = scl then (s, pushLocality prefs pref city) :: rest
    else (s, prefs) :: pushGroup rest scl pref city

/-- The grouped object built from the cityMaxScale entries (app.js lines
202-209). -/
def groupedOf (cms : List (String × String)) : ScaleGroups :=
  cms.foldl (fun g kv => pushGroup g kv.2 (keyPref kv.1) (keyCity kv.1)) []

/-- The order produced by Object.keys(grouped).sort((a,b)=>compareScale(b,a)):
a group comes no later than another when its severity rank is at least as
large. -/
def groupLE (a b : String × PrefGroups) : Prop := compareScale b.1 a.1 ≤ 0

instance : DecidableRel groupLE :=
  fun a b => inferInstanceAs (Decidable (compareScale b.1 a.1 ≤ 0))

instance : IsTotal (String × PrefGroups) groupLE :=
  ⟨fun a b => by unfold groupLE compareScale; omega⟩

instance : IsTrans (String × PrefGroups) groupLE :=
  ⟨fun a b c h1 h2 => by unfold groupLE compareScale at *; omega⟩

/-- The full grouping pipeline of app.js lines 192-216: maximum severity per
(pref, city) key, grouping by severity then region, severity groups sorted
descending, and localities sorted as by the argument-less JS sort. -/
def groupPoints (pts : List Point) : ScaleGroups :=
  (List.insertionSort groupLE (groupedOf (cityMaxScale pts))).map
    (fun g => (g.1, g.2.map
      (fun pl => (pl.1, List.insertionSort (fun a b : String => a ≤ b) pl.2))))

/-! ### Dedup keys and the notification step (app.js lines 234-259, 322-328) -/

/-- A browser notification: title and body text. -/
structure Notification where
  title : String
  body : String
deriving DecidableEq

/-- JS a||b for strings: the empty string is the only falsy string. -/
def jsOr (a b : String) : String := if a = "" then b else a

/-- One earthquake feed entry, flattened to the fields the dedup and
notification code reads. itemId and eqId model item.id and
item.earthquake.id; the issue types model item.issue?.type and
eq.issue?.type; place models the hypocenter name; absent JS fields are the
empty string. -/
structure EqItem where
  itemId : String
  eqId : String
  itemIssueType : String
  eqIssueType : String
  time : String
  place : String
  maxScale : Int
  points : List Point

/-- The dedup key of app.js line 235:
(item.id ? item.id : (eq.id||'')) + underscore + (item.issue?.type || eq.issue?.type || ''). -/
def dedupKey (it : EqItem) : String :=
  jsOr it.itemId it.eqId ++ "_" ++ jsOr it.itemIssueType it.eqIssueType

/-- Placeholder used only for the unreachable items[0] of an empty list. -/
def defaultEqItem : EqItem := ⟨"", "", "", "", "", "", 0, []⟩

/-- newKeys collected over items.slice(0,5) (app.js lines 181, 236). -/
def newKeysOf (items : List EqItem) : List String := (items.take 5).map dedupKey

/-- added = newKeys.filter(k => !prevList.includes(k)) (app.js line 248). -/
def addedKeys (items : List EqItem) (prevList : List String) : List String :=
  (newKeysOf items).filter (fun k => decide (k ∉ prevList))

/-- The seen-list update of one cycle (app.js lines 248, 256): keys not yet
present are prepended and the list is truncated to 10; with nothing new the
list is untouched. -/
def recordCycle (prev : List String) (newKeys : List String) : List String :=
  let added := newKeys.filter (fun k => decide (k ∉ prev))
  if 0 < added.length then (added ++ prev).take 10 else prev

/-- Recording a single key: a cycle whose only new key is k. -/
def record (prev : List String) (k : String) : List String := recordCycle prev [k]

/-- The notification block of app.js lines 246-259: with at least one new
key, one notification built from items[0] is emitted and the seen list is
updated; otherwise nothing happens. -/
def eqNotifyStep (items : List EqItem) (prevList : List String) :
    List Notification × List String :=
  let added := addedKeys items prevList
  if 0 < added.length then
    let sample := items.headD defaultEqItem
    ([⟨ "新しい地震情報",
        jsOr sample.place "不明" ++ " 最大震度:" ++ scaleToText sample.maxScale⟩],
     (added ++ prevList).take 10)
  else ([], prevList)

/-! ### EEW handling (app.js lines 263-329) -/

/-- An EEW payload, flattened to the fields the embedded logic reads.
Alternative raw field spellings (Hypocenter/hypocenter,
MaxIntensity/maxInt) are collapsed into single fields; missing fields are
the empty string. -/
structure EEWData where
  isTraining : Bool
  isCancel : Bool
  eventID : String
  serial : String
  hypocenter : String
  maxIntensity : String

/-- The dedup key of app.js line 323:
(data.EventID ? data.EventID : '') + underscore + (data.Serial ? data.Serial : ''). -/
def eewKey (d : EEWData) : String :=
  (if d.eventID = "" then "" else d.eventID) ++ "_"
    ++ (if d.serial = "" then "" else d.serial)

/-- The EEW fetch-and-render decision logic: none models an absent/empty
payload; training and cancelled payloads return before the notification
block; otherwise a notification fires iff the key is truthy and differs
from the stored seen key, which is then overwritten. -/
def fetchAndRenderEEW (data : Option EEWData) (seenEew : Option String) :
    List Notification × Option String :=
  match data with
  | none => ([], seenEew)
  | some d =>
    if d.isTraining then ([], seenEew)
    else if d.isCancel then ([], seenEew)
    else
      let key := eewKey d
      if key ≠ "" ∧ seenEew ≠ some key then
        ([⟨ "緊急地震速報(EEW)",
            jsOr d.hypocenter "震源地不明" ++ " 最大震度:" ++ jsOr d.maxIntensity "不明"⟩],
         some key)
      else ([], seenEew)

/-! ### Fetch with fallback (app.js lines 157-176, part_000 lines 17-26) -/

/-- Outcome of attempting a live endpoint: success with a parsed payload, a
non-success HTTP status, or a thrown network error. -/
inductive FetchOutcome (α : Type) where
  | ok : α → FetchOutcome α
  | httpError : Nat → FetchOutcome α
  | networkError : String → FetchOutcome α

/-- The FetchResult variants named by the specification: Live, Fallback,
Empty. -/
inductive FetchResult (α : Type) where
  | live : α → FetchResult α
  | fallback : α → FetchResult α
  | empty : FetchResult α
deriving DecidableEq

/-- The fetch-with-fallback step as the specification tags it: a live
success is Live, any failure degrades to the snapshot when present and to
Empty otherwise; no error case escapes. -/
def fetchFeed {α : Type} (liveResult : FetchOutcome α) (snapshot : Option α) :
    FetchResult α :=
  match liveResult with
  | .ok p => .live p
  | _ =>
    match snapshot with
    | some p => .fallback p
    | none => .empty

/-- Records carried by a fetch result; Empty normalizes to no records. -/
def itemsOf {α : Type} : FetchResult (List α) → List α
  | .live p => p
  | .fallback p => p
  | .empty => []

/-- The items variable after app.js lines 160-164: null when the live fetch
failed, then replaced by the fallback snapshot entry when present. -/
def resolveItems {α : Type} (liveResult : FetchOutcome α) (snapshot : Option α) :
    Option α :=
  match liveResult with
  | .ok p => some p
  | _ => snapshot

/-- What the earthquake card shows: the no-data placeholder or cards built
from the first five items. -/
inductive EqRender where
  | placeholder : EqRender
  | cards : List EqItem → EqRender

/-- fetchAndRenderEarthquakes (app.js lines 157-260), reduced to the data it
computes: the rendered card, the notifications emitted, and the updated
seen list. With no usable items it renders the placeholder and returns
before the notification block. -/
def fetchAndRenderEarthquakes (live : FetchOutcome (List EqItem))
    (fallback : Option (List EqItem)) (prevList : List String) :
    EqRender × List Notification × List String :=
  match resolveItems live fallback with
  | none => (.placeholder, [], prevList)
  | some [] => (.placeholder, [], prevList)
  | some items =>
    let ns := eqNotifyStep items prevList
    (.cards (items.take 5), ns.1, ns.2)

/-- fetchData of the second script (part_000 lines 17-26): any thrown error
or non-ok status is caught and becomes null. -/
def fetchData {α : Type} (r : FetchOutcome α) : Option α :=
  match r with
  | .ok p => some p
  | _ => none

/-! ### Scheduler (app.js lines 418-428) -/

/-- Scheduler state: the autoUpdate flag, plus an instrumentation counter of
fetch-and-process cycles currently in flight (the JS code itself keeps no
such counter). -/
structure SchedState where
  autoUpdate : Bool
  inFlight : Nat

/-- A timer tick (app.js lines 420-422): the handler starts updateAll iff
autoUpdate holds; it consults nothing else. The Bool reports whether a
cycle was started. -/
def tick (s : SchedState) : SchedState × Bool :=
  if s.autoUpdate then ({ s with inFlight := s.inFlight + 1 }, true) else (s, false)

/-- The refresh button handler (app.js lines 426-428): it always starts
updateAll. -/
def manualRefresh (s : SchedState) : SchedState × Bool :=
  ({ s with inFlight := s.inFlight + 1 }, true)

/-! ### HTML escaping and render of the second script (part_000 lines 10-51) -/

/-- Per-character replacement of the regex in escapeHtml: the five special
characters become their entities, everything else is kept. The double
quote and apostrophe characters are written by code point (34 and 39). -/
def escChar (c : Char) : String :=
  if c = '&' then "&amp;"
  else if c = '<' then "&lt;"
  else if c = '>' then "&gt;"
  else if c = Char.ofNat 34 then "&quot;"
  else if c = Char.ofNat 39 then "&#39;"
  else String.singleton c

/-- escapeHtml applied character by character to a character list. -/
def escList : List Char → List Char
  | [] => []
  | c :: cs => (escChar c).data ++ escList cs

/-- escapeHtml (part_000 lines 10-15) on a string input. The falsy-input
guard of the JS function coincides with this definition on the empty
string, the only falsy string. -/
def escapeHtml (s : String) : String := String.mk (escList s.data)

/-- One item of the second script data feed; absent JS fields are the empty
string. -/
structure FeedItem where
  type : String
  title : String
  message : String

/-- The innerHTML template of render (part_000 lines 42-46): the type,
title, formatted time and message are each passed through escapeHtml; the
markup around them is fixed. timeStr abstracts fmt(it.time||updated). -/
def renderItem (it : FeedItem) (timeStr : String) : String :=
  "\n      <div class=\"type\">" ++ escapeHtml it.type ++ " "
    ++ escapeHtml (jsOr it.title (jsOr it.type "情報"))
    ++ "</div>\n      <div class=\"time\">" ++ escapeHtml timeStr
    ++ "</div>\n      <div style=\"margin-top:6px\">" ++ escapeHtml it.message
    ++ "</div>\n    "

/-! ### Concrete sample inputs used by witnesses and counterexamples -/

/-- The three points of the specification test, with the raw numeric codes
50 and 30 whose display texts are the 5+ and 3 of the test. -/
def demoPoints : List Point := [⟨ "A", "A市", 50⟩, ⟨ "A", "A市", 30⟩, ⟨ "B", "B町", 50⟩]

/-- Two earthquake entries with distinct ids, both unseen. -/
def demoEqA : EqItem := ⟨ "e1", "", "", "", "t1", "P1", 50, []⟩

def demoEqB : EqItem := ⟨ "e2", "", "", "", "t2", "P2", 30, []⟩

def demoItems : List EqItem := [demoEqA, demoEqB]

/-- Two identifier-less earthquake entries sharing an issue type but
differing in time, epicenter and maximum severity. -/
def noIdEqA : EqItem := ⟨ "", "", "ScalePrompt", "", "2025-01-01", "PlaceA", 50, []⟩

def noIdEqB : EqItem := ⟨ "", "", "ScalePrompt", "", "2025-02-02", "PlaceB", 30, []⟩

/-- An EEW payload with no event identifier and no serial number. -/
def eewNoId : EEWData := ⟨ false, false, "", "", "X", "5+"⟩

/-- An EEW payload flagged as training, with a fresh dedup key. -/
def eewTraining : EEWData := ⟨ true, false, "ev1", "1", "X", "5+"⟩

/-- A scheduler state with one cycle in flight and auto update on. -/
def schedBusy : SchedState := ⟨ true, 1⟩

/-- Eleven distinct keys. -/
def demo11 : List String :=
  ["k01", "k02", "k03", "k04", "k05", "k06", "k07", "k08", "k09", "k10", "k11"]

/-! ### Helper lemmas -/

theorem alookup_eq_none {β : Type} (key : String) (m : List (String × β))
    (h : ∀ kv ∈ m, kv.1 ≠ key) : alookup key m = none := by
  induction m with
  | nil => rfl
  | cons kv rest ih =>
    obtain ⟨k, v⟩ := kv
    have hk : k ≠ key := h (k, v) (by simp)
    simp only [alookup, if_neg hk]
    exact ih (fun kv hkv => h kv (by simp [hkv]))

theorem string_empty_append (s : String) : "" ++ s = s := by
  cases s
  rfl

theorem string_data_append (a b : String) : (a ++ b).data = a.data ++ b.data := by
  cases a
  cases b
  rfl

/-! ### C6: the severity comparison -/

/-- C6: compareScale is a strict total order over the nine levels,
consistent with the sequence 1, 2, 3, 4, 5-, 5+, 6-, 6+, 7 (strictly
negative exactly on pairs in ascending position, zero exactly on equal
positions), it is a total Lean function so it is defined for every input
string, and every string outside the nine known levels compares strictly
below each known level. -/
theorem compareScale_strict_total_order :
    (∀ i j : Fin knownLevels.length,
        (compareScale (knownLevels.get i) (knownLevels.get j) < 0 ↔ (i : Nat) < (j : Nat))
      ∧ (compareScale (knownLevels.get i) (knownLevels.get j) = 0 ↔ i = j))
    ∧ (∀ s : String, s ∉ knownLevels → ∀ l ∈ knownLevels, compareScale s l < 0) := by
  constructor
  · decide
  · intro s hs l hl
    have hk : ∀ kv ∈ scaleOrder, kv.1 ≠ s := by
      intro kv hkv he
      subst he
      apply hs
      fin_cases hkv <;> decide
    have h0 : rank s = 0 := by
      unfold rank
      rw [alookup_eq_none s scaleOrder hk]
      rfl
    fin_cases hl <;> simp [compareScale, h0] <;> decide

/-- Witness for C6 at the unrecognized code 米: it is outside the nine
levels and compares below the lowest known level. -/
theorem compareScale_witness : compareScale "米" "1" < 0 :=
  compareScale_strict_total_order.2 "米" (by decide) "1" (by decide)

/-! ### C2: several new records in one cycle -/

/-- C2 counterexample: in one cycle with two new earthquake records (two
dedup keys absent from the seen store) the code emits a single coalesced
notification, not one per record. -/
theorem eqNotify_coalesces_counterexample :
    (addedKeys demoItems []).length = 2 ∧ (eqNotifyStep demoItems []).1.length = 1 := by
  decide

/-- C2 amended: in one poll cycle the earthquake handler emits exactly one
notification (built from the first item) when at least one record is new,
and none otherwise; multiple new records are coalesced into that single
notification. -/
theorem eqNotify_count (items : List EqItem) (prevList : List String) :
    (eqNotifyStep items prevList).1.length =
      (if 0 < (addedKeys items prevList).length then 1 else 0) := by
  unfold eqNotifyStep
  by_cases h : 0 < (addedKeys items prevList).length <;> simp [h]

/-! ### C3: scheduler overlap -/

/-- C3 counterexample: with one cycle still in flight and auto update on,
the next timer tick is not skipped: it starts a second, overlapping cycle;
the manual refresh also starts a cycle unconditionally. -/
theorem scheduler_overlap_counterexample :
    1 ≤ schedBusy.inFlight ∧ (tick schedBusy).2 = true
      ∧ (tick schedBusy).1.inFlight = 2 ∧ (manualRefresh schedBusy).2 = true := by
  decide

/-- C3 amended: a timer tick starts a cycle iff the autoUpdate flag is set,
and a manual refresh always starts a cycle; neither handler consults any
in-flight state, so a tick or refresh during an in-flight cycle starts an
overlapping one. -/
theorem scheduler_no_inflight_guard (s : SchedState) :
    ((tick s).2 = s.autoUpdate)
      ∧ ((manualRefresh s).2 = true)
      ∧ ((tick s).1.inFlight = if s.autoUpdate then s.inFlight + 1 else s.inFlight)
      ∧ ((manualRefresh s).1.inFlight = s.inFlight + 1) := by
  obtain ⟨a, f⟩ := s
  cases a <;> simp [tick, manualRefresh]

/-! ### C8: training and cancelled EEW payloads -/

/-- C8: an EEW payload flagged as training, and likewise one flagged as
cancelled, produces no notification and leaves the seen state unchanged,
even when its dedup key has never been seen. -/
theorem eew_training_no_notification (d : EEWData) (seen : Option String)
    (h : d.isTraining = true ∨ d.isCancel = true) :
    fetchAndRenderEEW (some d) seen = ([], seen) := by
  rcases h with h | h
  · simp [fetchAndRenderEEW, h]
  · cases ht : d.isTraining <;> simp [fetchAndRenderEEW, h, ht]

/-- Witness for C8: the concrete training payload with a fresh key yields no
notification and an unchanged seen state. -/
theorem eew_training_witness :
    fetchAndRenderEEW (some eewTraining) none = ([], none) :=
  eew_training_no_notification eewTraining none (Or.inl rfl)

/-! ### C9: failing feed with absent fallback -/

/-- C9: when the live endpoint fails (HTTP error or network error) and the
fallback snapshot entry is absent, the fetch step is the Empty result,
which carries no records; the earthquake renderer shows the no-data
placeholder, emits nothing and leaves the seen list unchanged; and the
second script's fetchData yields null. All failure cases are ordinary
values, so no transport error passes the fetch boundary. -/
theorem feed_failure_empty (e : FetchOutcome (List EqItem)) (prevList : List String)
    (h : ∀ p, e ≠ FetchOutcome.ok p) :
    (fetchFeed e (none : Option (List EqItem)) = FetchResult.empty)
      ∧ (itemsOf (fetchFeed e (none : Option (List EqItem))) = [])
      ∧ (resolveItems e (none : Option (List EqItem)) = none)
      ∧ (fetchAndRenderEarthquakes e none prevList = (EqRender.placeholder, [], prevList))
      ∧ (fetchData e = none) := by
  cases e with
  | ok p => exact absurd rfl (h p)
  | httpError n => exact ⟨rfl, rfl, rfl, rfl, rfl⟩
  | networkError m => exact ⟨rfl, rfl, rfl, rfl, rfl⟩

/-- Witness for C9 at a concrete network error with no snapshot. -/
theorem feed_failure_witness :
    fetchFeed (FetchOutcome.networkError "timeout") (none : Option (List EqItem))
        = FetchResult.empty
      ∧ fetchAndRenderEarthquakes (FetchOutcome.networkError "timeout") none []
        = (EqRender.placeholder, [], []) :=
  ⟨(feed_failure_empty (FetchOutcome.networkError "timeout") []
      (fun _ hp => FetchOutcome.noConfusion hp)).1,
   (feed_failure_empty (FetchOutcome.networkError "timeout") []
      (fun _ hp => FetchOutcome.noConfusion hp)).2.2.2.1⟩

/-! ### C4: EEW dedup key with a missing identifier -/

/-- C4 counterexample: an early-warning payload with no event identifier
gets the one-character key of a single underscore, not the empty string,
and with that key already stored the notification is suppressed, so the
dispatcher does not skip dedup for identifier-less records. -/
theorem eewKey_empty_counterexample :
    eewKey eewNoId = "_" ∧ ¬ (eewKey eewNoId = "")
      ∧ fetchAndRenderEEW (some eewNoId) (some "_") = ([], some "_") := by
  decide

/-- C4 amended: the EEW dedup key always contains the underscore separator
and is therefore never empty; with no event identifier it degenerates to
underscore-plus-serial. The empty-key skip branch of the dispatcher is
unreachable: for a non-training, non-cancelled payload a notification is
suppressed exactly when the stored seen key equals the derived key, even
for identifier-less payloads. -/
theorem eewKey_never_empty (d : EEWData) :
    (eewKey d ≠ "")
      ∧ (d.eventID = "" → eewKey d = "_" ++ (if d.serial = "" then "" else d.serial))
      ∧ (∀ seen : Option String, d.isTraining = false → d.isCancel = false →
          seen = some (eewKey d) → (fetchAndRenderEEW (some d) seen).1 = [])
      ∧ (∀ seen : Option String, d.isTraining = false → d.isCancel = false →
          seen ≠ some (eewKey d) → (fetchAndRenderEEW (some d) seen).1.length = 1) := by
  have hne : eewKey d ≠ "" := by
    intro h
    have := congrArg String.length h
    simp [eewKey, String.length_append] at this
    exact absurd this.1.2 (by decide)
  refine ⟨hne, ?_, ?_, ?_⟩
  · intro h
    simp only [eewKey, h, if_pos rfl]
    exact congrArg (· ++ _) (string_empty_append "_")
  · intro seen ht hc hs
    simp [fetchAndRenderEEW, ht, hc, hs]
  · intro seen ht hc hs
    simp [fetchAndRenderEEW, ht, hc, hs, hne]

/-- Witness for C4 at the identifier-less payload: its key and the
suppression of its notification when the key is the stored one. -/
theorem eewKey_never_empty_witness :
    eewKey eewNoId = "_" ++ (if eewNoId.serial = "" then "" else eewNoId.serial)
      ∧ (fetchAndRenderEEW (some eewNoId) (some "_")).1 = [] :=
  ⟨(eewKey_never_empty eewNoId).2.1 rfl,
   (eewKey_never_empty eewNoId).2.2.1 (some "_") rfl rfl (by decide)⟩

/-! ### C5: earthquake dedup key with a missing identifier -/

/-- C5 counterexample: two identifier-less earthquake entries that differ in
timestamp, epicenter and maximum severity but share an issue type receive
the same dedup key, and that key is underscore-plus-issue-type, not a
combination of timestamp, epicenter and severity. -/
theorem dedupKey_counterexample :
    dedupKey noIdEqA = dedupKey noIdEqB
      ∧ ¬ (noIdEqA.time = noIdEqB.time)
      ∧ ¬ (noIdEqA.place = noIdEqB.place)
      ∧ ¬ (noIdEqA.maxScale = noIdEqB.maxScale)
      ∧ dedupKey noIdEqA = "_ScalePrompt" := by
  decide

/-- C5 amended: the earthquake dedup key is the event identifier (item
level, else quake level, else empty) concatenated by an underscore with
the issue type (item level, else quake level, else empty); with no
identifier the key degenerates to underscore-plus-issue-type, so two
identifier-less entries with the same effective issue type share one key. -/
theorem dedupKey_idless (it it2 : EqItem) :
    (it.itemId = "" → it.eqId = "" →
      dedupKey it = "_" ++ jsOr it.itemIssueType it.eqIssueType)
      ∧ (it.itemId = "" → it.eqId = "" → it2.itemId = "" → it2.eqId = "" →
          jsOr it.itemIssueType it.eqIssueType = jsOr it2.itemIssueType it2.eqIssueType →
          dedupKey it = dedupKey it2) := by
  have base : ∀ x : EqItem, x.itemId = "" → x.eqId = "" →
      dedupKey x = "_" ++ jsOr x.itemIssueType x.eqIssueType := by
    intro x h1 h2
    simp only [dedupKey, jsOr, h1, h2, if_pos rfl]
    exact congrArg (· ++ _) (string_empty_append "_")
  refine ⟨base it, ?_⟩
  intro h1 h2 h3 h4 he
  rw [base it h1 h2, base it2 h3 h4, he]

/-- Witness for C5 at the two concrete identifier-less entries. -/
theorem dedupKey_idless_witness :
    dedupKey noIdEqA = "_" ++ jsOr noIdEqA.itemIssueType noIdEqA.eqIssueType
      ∧ dedupKey noIdEqA = dedupKey noIdEqB :=
  ⟨(dedupKey_idless noIdEqA noIdEqB).1 rfl rfl,
   (dedupKey_idless noIdEqA noIdEqB).2 rfl rfl rfl rfl (by decide)⟩

/-! ### C7: bounded seen-key history -/

theorem record_of_mem (prev : List String) (k : String) (h : k ∈ prev) :
    record prev k = prev := by
  simp [record, recordCycle, h]

theorem record_of_not_mem (prev : List String) (k : String) (h : k ∉ prev) :
    record prev k = (k :: prev).take 10 := by
  simp [record, recordCycle, h]

theorem record_length_le (prev : List String) (k : String) (h : prev.length ≤ 10) :
    (record prev k).length ≤ 10 := by
  by_cases hm : k ∈ prev
  · rw [record_of_mem prev k hm]
    exact h
  · rw [record_of_not_mem prev k hm]
    rw [List.length_take]
    omega

theorem foldl_record_length_le (ks : List String) (prev : List String)
    (h : prev.length ≤ 10) : (ks.foldl record prev).length ≤ 10 := by
  induction ks generalizing prev with
  | nil => exact h
  | cons k rest ih => exact ih (record prev k) (record_length_le prev k h)

theorem take_append_take (a b : List String) (n : Nat) :
    (a ++ b.take n).take n = (a ++ b).take n := by
  rw [List.take_append_eq_append_take, List.take_append_eq_append_take, List.take_take]
  have : min (n - a.length) n = n - a.length := by omega
  rw [this]

theorem foldl_record_eq (ks : List String) (prev : List String)
    (hd : ∀ k ∈ ks, k ∉ prev) (hn : ks.Nodup) (hl : prev.length ≤ 10) :
    ks.foldl record prev = (ks.reverse ++ prev).take 10 := by
  induction ks generalizing prev with
  | nil => simp [List.take_of_length_le hl]
  | cons k rest ih =>
    have hk : k ∉ prev := hd k (by simp)
    have hstep : record prev k = (k :: prev).take 10 := record_of_not_mem prev k hk
    have hl' : ((k :: prev).take 10).length ≤ 10 := by
      rw [List.length_take]
      omega
    have hd' : ∀ k' ∈ rest, k' ∉ (k :: prev).take 10 := by
      intro k' hk' hmem
      have hm : k' ∈ k :: prev := List.mem_of_mem_take hmem
      rcases List.mem_cons.mp hm with he | hp
      · subst he
        exact (List.nodup_cons.mp hn).1 hk'
      · exact hd k' (by simp [hk']) hp
    calc (k :: rest).foldl record prev
        = rest.foldl record (record prev k) := rfl
      _ = (rest.reverse ++ (k :: prev).take 10).take 10 := by
          rw [hstep]
          exact ih ((k :: prev).take 10) hd' (List.nodup_cons.mp hn).2 hl'
      _ = (rest.reverse ++ (k :: prev)).take 10 := take_append_take _ _ 10
      _ = ((k :: rest).reverse ++ prev).take 10 := by
          rw [List.reverse_cons, List.append_assoc]
          rfl

/-- C7: after any sequence of record operations starting from a list of at
most 10 keys, the seen list holds at most 10 keys; a fresh key is added to
the front with the oldest evicted by the truncation; and recording 11
distinct keys into an empty store leaves exactly the 10 most recently
recorded keys retrievable. -/
theorem seenStore_bounded :
    (∀ (prev : List String) (k : String), prev.length ≤ 10 →
        (record prev k).length ≤ 10)
      ∧ (∀ (prev ks : List String), prev.length ≤ 10 →
          (ks.foldl record prev).length ≤ 10)
      ∧ (∀ (prev : List String) (k : String), k ∉ prev →
          record prev k = (k :: prev).take 10)
      ∧ (∀ ks : List String, ks.length = 11 → ks.Nodup →
          ∀ k : String, (k ∈ ks.foldl record []) ↔ k ∈ ks.drop 1) := by
  refine ⟨record_length_le, fun prev ks => foldl_record_length_le ks prev,
    record_of_not_mem, ?_⟩
  intro ks h11 hn k
  have hA : ks.foldl record [] = (ks.reverse ++ []).take 10 :=
    foldl_record_eq ks [] (by simp) hn (by simp)
  rw [hA, List.append_nil]
  cases ks with
  | nil => simp at h11
  | cons k0 rest =>
    have hr : rest.length = 10 := by
      simp only [List.length_cons] at h11
      omega
    have hrev : rest.reverse.length = 10 := by simp [hr]
    rw [List.reverse_cons, List.take_append_eq_append_take, hrev,
      List.take_of_length_le (le_of_eq hrev)]
    simp [List.mem_reverse]

/-- Witness for C7: recording the 11 distinct demo keys, the first is
evicted and the second is retained. -/
theorem seenStore_witness :
    (("k01" ∈ demo11.foldl record []) ↔ "k01" ∈ demo11.drop 1)
      ∧ (("k02" ∈ demo11.foldl record []) ↔ "k02" ∈ demo11.drop 1) :=
  ⟨seenStore_bounded.2.2.2 demo11 (by decide) (by decide) "k01",
   seenStore_bounded.2.2.2 demo11 (by decide) (by decide) "k02"⟩

/-! ### C1: the intensity grouper -/

theorem alookup_updateMax_self (m : List (String × String)) (key scl : String) :
    alookup key (updateMax m key scl) =
      some (match alookup key m with
            | none => scl
            | some v => if compareScale scl v > 0 then scl else v) := by
  induction m with
  | nil => simp [updateMax, alookup]
  | cons kv rest ih =>
    obtain ⟨k, v⟩ := kv
    by_cases hk : k = key
    · subst hk
      by_cases hc : compareScale scl v > 0 <;> simp [updateMax, alookup, hc]
    · simp [updateMax, alookup, hk, ih]

theorem alookup_updateMax_other (m : List (String × String)) (key scl k : String)
    (h : k ≠ key) : alookup k (updateMax m key scl) = alookup k m := by
  induction m with
  | nil => simp [updateMax, alookup, Ne.symm h]
  | cons kv rest ih =>
    obtain ⟨k1, v⟩ := kv
    by_cases hk : k1 = key
    · subst hk
      by_cases hc : compareScale scl v > 0 <;>
        simp [updateMax, alookup, hc, Ne.symm h]
    · by_cases hk2 : k1 = k
      · subst hk2
        simp [updateMax, alookup, hk]
      · simp [updateMax, alookup, hk, hk2, ih]

theorem cms_fold (pts : List Point) (m : List (String × String)) (key r : String)
    (h : alookup key (pts.foldl cmsStep m) = some r) :
    ((alookup key m = some r ∨ ∃ p ∈ pts, keyOf p = key ∧ sevOf p = r)
      ∧ (∀ v, alookup key m = some v → rank v ≤ rank r)
      ∧ (∀ p ∈ pts, keyOf p = key → rank (sevOf p) ≤ rank r)) := by
  induction pts generalizing m with
  | nil =>
    simp only [List.foldl_nil] at h
    refine ⟨Or.inl h, ?_, ?_⟩
    · intro v hv
      rw [h] at hv
      obtain rfl := Option.some.inj hv
      exact le_refl _
    · intro p hp
      simp at hp
  | cons p rest ih =>
    rw [List.foldl_cons] at h
    obtain ⟨ih1, ih2, ih3⟩ := ih (cmsStep m p) h
    by_cases hkp : keyOf p = key
    · subst hkp
      cases hm : alookup (keyOf p) m with
      | none =>
        have h1 : alookup (keyOf p) (cmsStep m p) = some (sevOf p) := by
          unfold cmsStep
          rw [alookup_updateMax_self, hm]
        have hsr : rank (sevOf p) ≤ rank r := ih2 (sevOf p) h1
        refine ⟨?_, ?_, ?_⟩
        · rcases ih1 with hl | ⟨q, hq, hkq, hsq⟩
          · rw [h1] at hl
            obtain rfl := Option.some.inj hl
            exact Or.inr ⟨p, by simp, rfl, rfl⟩
          · exact Or.inr ⟨q, by simp [hq], hkq, hsq⟩
        · intro v hv
          exact Option.noConfusion hv
        · intro q hq hkq
          rcases List.mem_cons.mp hq with he | hq2
          · subst he
            exact hsr
          · exact ih3 q hq2 hkq
      | some v =>
        have h1 : alookup (keyOf p) (cmsStep m p) =
            some (if compareScale (sevOf p) v > 0 then sevOf p else v) := by
          unfold cmsStep
          rw [alookup_updateMax_self, hm]
        have hsr : rank (if compareScale (sevOf p) v > 0 then sevOf p else v) ≤ rank r :=
          ih2 _ h1
        have hv1 : rank v ≤ rank (if compareScale (sevOf p) v > 0 then sevOf p else v) := by
          by_cases hc : compareScale (sevOf p) v > 0
          · rw [if_pos hc]
            unfold compareScale at hc
            omega
          · rw [if_neg hc]
        have hp1 : rank (sevOf p)
            ≤ rank (if compareScale (sevOf p) v > 0 then sevOf p else v) := by
          by_cases hc : compareScale (sevOf p) v > 0
          · rw [if_pos hc]
          · rw [if_neg hc]
            unfold compareScale at hc
            omega
        refine ⟨?_, ?_, ?_⟩
        · rcases ih1 with hl | ⟨q, hq, hkq, hsq⟩
          · rw [h1] at hl
            obtain rfl := Option.some.inj hl
            by_cases hc : compareScale (sevOf p) v > 0
            · refine Or.inr ⟨p, by simp, rfl, ?_⟩
              rw [if_pos hc]
            · rw [if_neg hc]
              exact Or.inl rfl
          · exact Or.inr ⟨q, by simp [hq], hkq, hsq⟩
        · intro w hw
          obtain rfl := Option.some.inj hw
          exact le_trans hv1 hsr
        · intro q hq hkq
          rcases List.mem_cons.mp hq with he | hq2
          · subst he
            exact le_trans hp1 hsr
          · exact ih3 q hq2 hkq
    · have heq : alookup key (cmsStep m p) = alookup key m := by
        unfold cmsStep
        exact alookup_updateMax_other m (keyOf p) (sevOf p) key (Ne.symm hkp)
      refine ⟨?_, ?_, ?_⟩
      · rcases ih1 with hl | ⟨q, hq, hkq, hsq⟩
        · rw [heq] at hl
          exact Or.inl hl
        · exact Or.inr ⟨q, by simp [hq], hkq, hsq⟩
      · intro v hv
        exact ih2 v (by rw [heq]; exact hv)
      · intro q hq hkq
        rcases List.mem_cons.mp hq with he | hq2
        · subst he
          exact absurd hkq hkp
        · exact ih3 q hq2 hkq

theorem alookup_cmsStep_isSome (m : List (String × String)) (p : Point) (k : String)
    (h : (alookup k m).isSome = true) : (alookup k (cmsStep m p)).isSome = true := by
  by_cases hk : keyOf p = k
  · subst hk
    unfold cmsStep
    rw [alookup_updateMax_self]
    rfl
  · unfold cmsStep
    rw [alookup_updateMax_other m (keyOf p) (sevOf p) k (Ne.symm hk)]
    exact h

theorem foldl_cmsStep_isSome (pts : List Point) (m : List (String × String)) (k : String)
    (h : (alookup k m).isSome = true) :
    (alookup k (pts.foldl cmsStep m)).isSome = true := by
  induction pts generalizing m with
  | nil => exact h
  | cons p rest ih => exact ih (cmsStep m p) (alookup_cmsStep_isSome m p k h)

theorem cms_presence_aux (pts : List Point) (m : List (String × String)) (p : Point)
    (hp : p ∈ pts) : (alookup (keyOf p) (pts.foldl cmsStep m)).isSome = true := by
  induction pts generalizing m with
  | nil => simp at hp
  | cons q rest ih =>
    rw [List.foldl_cons]
    rcases List.mem_cons.mp hp with he | hp2
    · subst he
      apply foldl_cmsStep_isSome
      unfold cmsStep
      rw [alookup_updateMax_self]
      rfl
    · exact ih (cmsStep m q) hp2

theorem cms_presence (pts : List Point) : ∀ p ∈ pts,
    (alookup (keyOf p) (cityMaxScale pts)).isSome = true :=
  fun p hp => cms_presence_aux pts [] p hp

theorem groupPoints_sorted (pts : List Point) : List.Sorted groupLE (groupPoints pts) := by
  unfold groupPoints
  exact List.Pairwise.map _ (fun a b hab => hab) (List.sorted_insertionSort groupLE _)

theorem groupPoints_localities_sorted (pts : List Point) :
    ∀ g ∈ groupPoints pts, ∀ pl ∈ g.2, List.Sorted (fun a b : String => a ≤ b) pl.2 := by
  intro g hg pl hpl
  unfold groupPoints at hg
  obtain ⟨g0, _hg0, rfl⟩ := List.mem_map.mp hg
  obtain ⟨pl0, _hpl0, rfl⟩ := List.mem_map.mp hpl
  exact List.sorted_insertionSort _ _

/-- C1: on the specification's three points (raw codes 50 and 30 rendering
as 5+ and 3) the grouper returns exactly one group, at severity 5+, with
region A carrying A市 and region B carrying B町 and the lower-severity
duplicate for A市 discarded; for every input, the output groups are
ordered by severity descending, localities inside each region are sorted;
and the retained severity of every distinct (region, locality) key is an
observed severity for the key that no other observation for the key
exceeds under compareScale, every observed key being retained. -/
theorem intensityGrouper_correct :
    (groupPoints demoPoints = [("5+", [("A", ["A市"]), ("B", ["B町"])])])
      ∧ (∀ pts : List Point, List.Sorted groupLE (groupPoints pts))
      ∧ (∀ pts : List Point, ∀ g ∈ groupPoints pts, ∀ pl ∈ g.2,
          List.Sorted (fun a b : String => a ≤ b) pl.2)
      ∧ (∀ (pts : List Point) (key r : String),
          alookup key (cityMaxScale pts) = some r →
            ((∃ p ∈ pts, keyOf p = key ∧ sevOf p = r)
              ∧ ∀ p ∈ pts, keyOf p = key → compareScale (sevOf p) r ≤ 0))
      ∧ (∀ pts : List Point, ∀ p ∈ pts,
          (alookup (keyOf p) (cityMaxScale pts)).isSome = true) := by
  refine ⟨by decide, groupPoints_sorted, groupPoints_localities_sorted, ?_, cms_presence⟩
  intro pts key r h
  obtain ⟨h1, _h2, h3⟩ := cms_fold pts [] key r h
  refine ⟨?_, ?_⟩
  · rcases h1 with hl | he
    · simp [alookup] at hl
    · exact he
  · intro p hp hk
    have := h3 p hp hk
    unfold compareScale
    omega

/-- Witness for C1 at the demo points and the key of region A, locality
A市: the retained severity 5+ is observed and maximal for that key. -/
theorem intensityGrouper_witness :
    (∃ p ∈ demoPoints, keyOf p = "A:A市" ∧ sevOf p = "5+")
      ∧ ∀ p ∈ demoPoints, keyOf p = "A:A市" → compareScale (sevOf p) "5+" ≤ 0 :=
  intensityGrouper_correct.2.2.2.1 demoPoints "A:A市" "5+" (by decide)

/-! ### C10: HTML escaping and the render template -/

theorem escChar_default (c : Char) (h1 : ¬ c = '&') (h2 : ¬ c = '<') (h3 : ¬ c = '>')
    (h4 : ¬ c = Char.ofNat 34) (h5 : ¬ c = Char.ofNat 39) :
    escChar c = String.singleton c := by
  simp [escChar, h1, h2, h3, h4, h5]

theorem escChar_no_markup (c : Char) :
    '<' ∉ (escChar c).data ∧ '>' ∉ (escChar c).data
      ∧ Char.ofNat 34 ∉ (escChar c).data ∧ Char.ofNat 39 ∉ (escChar c).data := by
  unfold escChar
  split_ifs with h1 h2 h3 h4 h5
  · decide
  · decide
  · decide
  · decide
  · decide
  · have hd : (String.singleton c).data = [c] := rfl
    rw [hd]
    refine ⟨?_, ?_, ?_, ?_⟩ <;> intro hm
    · exact h2 (List.mem_singleton.mp hm).symm
    · exact h3 (List.mem_singleton.mp hm).symm
    · exact h4 (List.mem_singleton.mp hm).symm
    · exact h5 (List.mem_singleton.mp hm).symm

theorem escList_append (a b : List Char) :
    escList (a ++ b) = escList a ++ escList b := by
  induction a with
  | nil => rfl
  | cons c cs ih => simp [escList, ih]

theorem escList_no_markup (l : List Char) :
    '<' ∉ escList l ∧ '>' ∉ escList l
      ∧ Char.ofNat 34 ∉ escList l ∧ Char.ofNat 39 ∉ escList l := by
  induction l with
  | nil =>
    refine ⟨?_, ?_, ?_, ?_⟩ <;> simp [escList]
  | cons c cs ih =>
    obtain ⟨e1, e2, e3, e4⟩ := escChar_no_markup c
    obtain ⟨i1, i2, i3, i4⟩ := ih
    refine ⟨?_, ?_, ?_, ?_⟩ <;> intro hm <;> simp only [escList, List.mem_append] at hm
    · rcases hm with h | h
      · exact e1 h
      · exact i1 h
    · rcases hm with h | h
      · exact e2 h
      · exact i2 h
    · rcases hm with h | h
      · exact e3 h
      · exact i3 h
    · rcases hm with h | h
      · exact e4 h
      · exact i4 h

theorem escapeHtml_no_markup (s : String) :
    '<' ∉ (escapeHtml s).data ∧ '>' ∉ (escapeHtml s).data
      ∧ Char.ofNat 34 ∉ (escapeHtml s).data ∧ Char.ofNat 39 ∉ (escapeHtml s).data :=
  escList_no_markup s.data

theorem escapeHtml_append (a b : String) :
    escapeHtml (a ++ b) = escapeHtml a ++ escapeHtml b := by
  show String.mk (escList (a ++ b).data)
      = String.mk (escList a.data) ++ String.mk (escList b.data)
  rw [string_data_append, escList_append]
  rfl

theorem escapeHtml_count_lt (s : String) : (escapeHtml s).data.count '<' = 0 :=
  List.count_eq_zero.mpr (escapeHtml_no_markup s).1

theorem escapeHtml_count_gt (s : String) : (escapeHtml s).data.count '>' = 0 :=
  List.count_eq_zero.mpr (escapeHtml_no_markup s).2.1

theorem renderItem_counts (it : FeedItem) (timeStr : String) :
    ((renderItem it timeStr).data.count '<' = 6)
      ∧ ((renderItem it timeStr).data.count '>' = 6) := by
  constructor <;>
  · simp only [renderItem, string_data_append, List.count_append,
      escapeHtml_count_lt, escapeHtml_count_gt]
    decide

/-- C10: escapeHtml maps each of the five special characters to its HTML
entity, keeps every other character, and distributes over concatenation,
so every occurrence in any input is replaced; its output never contains a
raw angle bracket or quote character; and the render template contains
exactly the six fixed opening and six fixed closing angle brackets
whatever the item's type, title, time text and message are, so feed text
never contributes markup. -/
theorem escapeHtml_render_safe :
    (escapeHtml "&" = "&amp;" ∧ escapeHtml "<" = "&lt;" ∧ escapeHtml ">" = "&gt;"
      ∧ escapeHtml (String.singleton (Char.ofNat 34)) = "&quot;"
      ∧ escapeHtml (String.singleton (Char.ofNat 39)) = "&#39;")
    ∧ (∀ c : Char, ¬ c = '&' → ¬ c = '<' → ¬ c = '>' → ¬ c = Char.ofNat 34 →
        ¬ c = Char.ofNat 39 → escChar c = String.singleton c)
    ∧ (∀ a b : String, escapeHtml (a ++ b) = escapeHtml a ++ escapeHtml b)
    ∧ (∀ s : String, '<' ∉ (escapeHtml s).data ∧ '>' ∉ (escapeHtml s).data
        ∧ Char.ofNat 34 ∉ (escapeHtml s).data ∧ Char.ofNat 39 ∉ (escapeHtml s).data)
    ∧ (∀ (it : FeedItem) (timeStr : String),
        ((renderItem it timeStr).data.count '<' = 6)
          ∧ ((renderItem it timeStr).data.count '>' = 6)) :=
  ⟨⟨by decide, by decide, by decide, by decide, by decide⟩,
   escChar_default, escapeHtml_append, escapeHtml_no_markup, renderItem_counts⟩

/-- Witness for C10: an ordinary character passes through escapeHtml
unchanged. -/
theorem escapeHtml_witness : escChar 'x' = String.singleton 'x' :=
  escapeHtml_render_safe.2.1 'x' (by decide) (by decide) (by decide) (by decide) (by decide)

end Weather365
